import Mathlib

/-!
# Verification of `stacked_renet_layer_slim.py` (ReNetLayer)

Shallow embedding of the single-file ReNet layer implementation.  Tensors are
modelled dimension-exactly: an `n`-dimensional tensor is a record of its `n`
dimension sizes together with a total data function from indices to integer
values (the float arithmetic of the source is modelled as exact integer
arithmetic; none of the verified claims depends on rounding).  Each torch
operation used by the source is embedded as its own definition, faithful to
the PyTorch semantics of that operation (`unfold` windows with truncation,
`permute` as index reordering, contiguous `view` as row-major re-indexing,
`torch.cat ∘ torch.split` as the block re-indexings they compose to).

The recurrent sub-networks (`nn.RNN` / `nn.GRU` / `nn.LSTM` instances) are
external library primitives; they are modelled as `RNNModule`: an output
feature count together with a function that maps each batch row's sequence to
an output sequence.  Mapping each batch row independently is the defining
batch semantics of the PyTorch recurrent primitives (batch rows never
interact).  Concrete instances realising the recurrent equations with
explicit weights are provided below for witnesses and counterexamples.
-/

/-- 3-dimensional tensor: dimension sizes plus a total data function. -/
structure Tensor3 where
  d0 : Nat
  d1 : Nat
  d2 : Nat
  data : Nat → Nat → Nat → ℤ

/-- 4-dimensional tensor. -/
structure Tensor4 where
  d0 : Nat
  d1 : Nat
  d2 : Nat
  d3 : Nat
  data : Nat → Nat → Nat → Nat → ℤ

/-- 5-dimensional tensor. -/
structure Tensor5 where
  d0 : Nat
  d1 : Nat
  d2 : Nat
  d3 : Nat
  d4 : Nat
  data : Nat → Nat → Nat → Nat → Nat → ℤ

/-- 6-dimensional tensor. -/
structure Tensor6 where
  d0 : Nat
  d1 : Nat
  d2 : Nat
  d3 : Nat
  d4 : Nat
  d5 : Nat
  data : Nat → Nat → Nat → Nat → Nat → Nat → ℤ

/-- `x.unfold(2, size, step)` on a 4-D tensor: windows of length `size`,
stride `step`, along dimension 2; the window-element index becomes a new
trailing dimension.  PyTorch produces `(d2 - size) / step + 1` windows
(truncating any remainder). -/
def unfold2 (x : Tensor4) (size step : Nat) : Tensor5 :=
  ⟨x.d0, x.d1, (x.d2 - size) / step + 1, x.d3, size,
   fun i0 i1 i2 i3 i4 => x.data i0 i1 (i2 * step + i4) i3⟩

/-- `t.unfold(3, size, step)` on a 5-D tensor (dimension 3), PyTorch
semantics as in `unfold2`. -/
def unfold3 (t : Tensor5) (size step : Nat) : Tensor6 :=
  ⟨t.d0, t.d1, t.d2, (t.d3 - size) / step + 1, t.d4, size,
   fun i0 i1 i2 i3 i4 i5 => t.data i0 i1 i2 (i3 * step + i5) i4⟩

/-- `.permute(0, 2, 3, 1, 4, 5)` on a 6-D tensor. -/
def permute_023145 (t : Tensor6) : Tensor6 :=
  ⟨t.d0, t.d2, t.d3, t.d1, t.d4, t.d5,
   fun i0 i1 i2 i3 i4 i5 => t.data i0 i3 i1 i2 i4 i5⟩

/-- `.contiguous().view(d0, d1, d2, -1)` on a 6-D tensor whose first three
view sizes equal its first three dimensions: row-major flattening of the
last three dimensions into one. -/
def view6to4 (t : Tensor6) : Tensor4 :=
  ⟨t.d0, t.d1, t.d2, t.d3 * (t.d4 * t.d5),
   fun i0 i1 i2 f =>
     t.data i0 i1 i2 (f / (t.d4 * t.d5)) (f % (t.d4 * t.d5) / t.d5) (f % t.d5)⟩

/-- `.permute(0, 3, 1, 2)` on a 4-D tensor. -/
def permute_0312 (t : Tensor4) : Tensor4 :=
  ⟨t.d0, t.d3, t.d1, t.d2, fun i0 i1 i2 i3 => t.data i0 i2 i3 i1⟩

/-- `.permute(2, 0, 3, 1)` on a 4-D tensor. -/
def permute_2031 (t : Tensor4) : Tensor4 :=
  ⟨t.d2, t.d0, t.d3, t.d1, fun i0 i1 i2 i3 => t.data i1 i3 i0 i2⟩

/-- `.permute(2, 1, 0, 3)` on a 4-D tensor. -/
def permute_2103 (t : Tensor4) : Tensor4 :=
  ⟨t.d2, t.d1, t.d0, t.d3, fun i0 i1 i2 i3 => t.data i2 i1 i0 i3⟩

/-- `.permute(1, 3, 2, 0)` on a 4-D tensor. -/
def permute_1320 (t : Tensor4) : Tensor4 :=
  ⟨t.d1, t.d3, t.d2, t.d0, fun i0 i1 i2 i3 => t.data i3 i0 i2 i1⟩

/-- `torch.cat(torch.split(x, 1, dim=0), dim=1)`: the `d0` slices of
thickness 1 along dimension 0, concatenated along dimension 1.  Slice `p`
occupies dimension-1 range `[p * d1, (p+1) * d1)`. -/
def catSplit01 (x : Tensor4) : Tensor4 :=
  ⟨1, x.d0 * x.d1, x.d2, x.d3,
   fun _ i1 i2 i3 => x.data (i1 / x.d1) (i1 % x.d1) i2 i3⟩

/-- `torch.cat(torch.split(t, m, dim=1), dim=0)` for `m` dividing `t.d1`:
the `t.d1 / m` chunks of thickness `m` along dimension 1, concatenated
along dimension 0. -/
def splitCat10 (t : Tensor4) (m : Nat) : Tensor4 :=
  ⟨t.d1 / m * t.d0, m, t.d2, t.d3,
   fun i0 i1 i2 i3 => t.data (i0 % t.d0) (i0 / t.d0 * m + i1) i2 i3⟩

/-- `_in[0]`: indexing a 4-D tensor at position 0 of dimension 0. -/
def sub0 (t : Tensor4) : Tensor3 :=
  ⟨t.d1, t.d2, t.d3, fun a b c => t.data 0 a b c⟩

/-- `out.contiguous().view(1, out.shape[0], out.shape[1], out.shape[2])`:
unsqueeze at dimension 0. -/
def unsqueeze0 (t : Tensor3) : Tensor4 :=
  ⟨1, t.d0, t.d1, t.d2, fun _ a b c => t.data a b c⟩

/-- `get_valid_patches` (source lines 155-176):
`x.unfold(2, wh, wh).unfold(3, ww, ww).permute(0,2,3,1,4,5)`, then
`.contiguous().view(B, H', W', -1).permute(0,3,1,2)`. -/
def get_valid_patches (wh ww : Nat) (x : Tensor4) : Tensor4 :=
  permute_0312 (view6to4 (permute_023145 (unfold3 (unfold2 x wh wh) ww ww)))

/-- Runtime precondition PyTorch imposes on `Tensor.unfold(dim, size, step)`:
the step is positive and the window fits the dimension.  Divisibility is
*not* checked. -/
def unfoldOk (dimLen size step : Nat) : Prop :=
  0 < step ∧ size ≤ dimLen

instance (dimLen size step : Nat) : Decidable (unfoldOk dimLen size step) := by
  unfold unfoldOk
  infer_instance

/-- The conditions under which the two `unfold` calls of
`get_valid_patches` execute without raising. -/
def get_valid_patches_ok (wh ww : Nat) (x : Tensor4) : Prop :=
  unfoldOk x.d2 wh wh ∧ unfoldOk x.d3 ww ww

instance (wh ww : Nat) (x : Tensor4) :
    Decidable (get_valid_patches_ok wh ww x) := by
  unfold get_valid_patches_ok
  infer_instance

/-- The hidden-state value returned by `get_init_hidden`: a pair
`(h0, c0)` for the LSTM variant, a single tensor otherwise. -/
inductive HiddenState where
  | single (h : Tensor3)
  | pair (h c : Tensor3)

/-- Leading dimension of the (first) hidden-state tensor. -/
def HiddenState.lead : HiddenState → Nat
  | .single h => h.d0
  | .pair h _ => h.d0

/-- `torch.zeros(a, b, c)` (the `.to(x.device)` device move is identity in
this device-free model). -/
def zeros3 (a b c : Nat) : Tensor3 :=
  ⟨a, b, c, fun _ _ _ => 0⟩

/-- `get_init_hidden` (source lines 141-153): zero state(s) of shape
`(2 * stack_size, x.size(1), hidden_dim)`; a `(h0, c0)` pair exactly when
`self.rnn_type == "LSTM"`. -/
def get_init_hidden (rnn_type : String) (hidden_dim : Nat) (x : Tensor4)
    (stack_size : Nat) : HiddenState :=
  if rnn_type = "LSTM" then
    .pair (zeros3 (2 * stack_size) x.d1 hidden_dim)
      (zeros3 (2 * stack_size) x.d1 hidden_dim)
  else
    .single (zeros3 (2 * stack_size) x.d1 hidden_dim)

/-- Model of a constructed PyTorch recurrent module (`nn.RNN`, `nn.GRU` or
`nn.LSTM` instance) applied with `batch_first=True`.  `outFeatures` is the
per-position output width (`2 * hidden_dim` for the bidirectional modules
built here).  `run hn seqLen seq pos k` is the output of the module on one
batch row: `hn` is the supplied initial hidden state, `seqLen` the sequence
length, `seq pos f` the input features.  That a 3-D batched input is mapped
by running `run` on each batch row separately (see `rnnApply`) is the batch
semantics of the PyTorch recurrent primitives: batch rows never interact. -/
structure RNNModule where
  outFeatures : Nat
  run : HiddenState → Nat → (Nat → Nat → ℤ) → Nat → Nat → ℤ

/-- `out, _ = rnn(_in[0], hn)`: the recurrent module applied to a 3-D
`(batch, seq, features)` input, one batch row at a time. -/
def rnnApply (m : RNNModule) (hn : HiddenState) (t : Tensor3) : Tensor3 :=
  ⟨t.d0, t.d1, m.outFeatures, fun b s k => m.run hn t.d1 (t.data b) s k⟩

/-- `apply_one_direction` (source lines 122-139):
`_in = torch.cat(torch.split(x, 1, dim=0), dim=1)`;
`hn = self.get_init_hidden(_in, stack_size)`;
`out, _ = rnn(_in[0], hn)`;
`out = out.contiguous().view(1, ...)`;
`out = torch.cat(torch.split(out, x.shape[1], dim=1), dim=0)`. -/
def apply_one_direction (rnn_type : String) (hidden_dim : Nat) (x : Tensor4)
    (rnn : RNNModule) (stack_size : Nat) : Tensor4 :=
  let _in := catSplit01 x
  let hn := get_init_hidden rnn_type hidden_dim _in stack_size
  let out := rnnApply rnn hn (sub0 _in)
  let out4 := unsqueeze0 out
  splitCat10 out4 x.d1

/-- The ReNet layer record: the attributes stored by `__init__` plus the two
constructed recurrent sub-networks. -/
structure ReNetLayer where
  window_size : Nat × Nat
  rnn_type : String
  hidden_dim : Nat
  stack_size : Nat × Nat
  channel_size : Nat
  firstVRNN : RNNModule
  secondHRNN : RNNModule

/-- The recurrent-network classes of the `torch.nn` namespace that accept
the keyword arguments `__init__` passes (the supported recurrent
variants); `getattr(nn, rnn)` for a name outside this table raises
`AttributeError` before any forward call is possible. -/
def nnRecurrentModules : List String :=
  ["RNN", "LSTM", "GRU"]

/-- `__init__` (source lines 38-68), with the weight tensors abstracted:
`run1` and `run2` are the batch-row semantics the two freshly constructed
(bidirectional, `batch_first`) recurrent modules end up with after weight
initialization.  Both modules output `2 * hidden_dim` features per position
(bidirectional concatenation).  An `rnn` name not resolvable in `torch.nn`
makes construction fail (`none`). -/
def mkReNetLayer (window_size hidden_dim : Nat) (rnn : String)
    (stack_size : Nat × Nat) (channel_size : Nat)
    (run1 run2 : HiddenState → Nat → (Nat → Nat → ℤ) → Nat → Nat → ℤ) :
    Option ReNetLayer :=
  if rnn ∈ nnRecurrentModules then
    some
      ⟨(window_size, window_size), rnn, hidden_dim, stack_size, channel_size,
       ⟨2 * hidden_dim, run1⟩, ⟨2 * hidden_dim, run2⟩⟩
  else
    none

/-- `forward` (source lines 82-120): patches, permute, first sweep,
permute, second sweep, permute back. -/
def forward (lay : ReNetLayer) (x : Tensor4) : Tensor4 :=
  let patches := get_valid_patches lay.window_size.1 lay.window_size.2 x
  let input_array := permute_2031 patches
  let vertical_results :=
    apply_one_direction lay.rnn_type lay.hidden_dim input_array
      lay.firstVRNN lay.stack_size.1
  let vertical_results2 := permute_2103 vertical_results
  let feature_map :=
    apply_one_direction lay.rnn_type lay.hidden_dim vertical_results2
      lay.secondHRNN lay.stack_size.2
  permute_1320 feature_map

/-- Rectified linear unit on integers. -/
def relu (z : ℤ) : ℤ :=
  max z 0

/-- Forward recurrence of a width-1 recurrent cell with relu nonlinearity,
all-ones input and recurrent weights and zero biases, started from the zero
hidden state: `h_0 = relu(u 0)`, `h_{t+1} = relu(u (t+1) + h_t)`. -/
def reluSum (u : Nat → ℤ) : Nat → ℤ
  | 0 => relu (u 0)
  | t + 1 => relu (u (t + 1) + reluSum u t)

/-- One concrete weight configuration for a bidirectional recurrent module
with `hidden_dim = 1` and one input feature: both directions use the
`reluSum` recurrence (the backward direction on the reversed sequence);
output feature 0 is the forward hidden state, feature 1 the backward one.
The supplied initial state is the zero state, which is exactly where the
recurrences start, so `run` does not read it. -/
def run1C : HiddenState → Nat → (Nat → Nat → ℤ) → Nat → Nat → ℤ :=
  fun _ seqLen seq t k =>
    if k = 0 then reluSum (fun s => seq s 0) t
    else reluSum (fun s => seq (seqLen - 1 - s) 0) (seqLen - 1 - t)

/-- Like `run1C` but for two input features with input weights `[1, 1]`
(the feature sum feeds the recurrence). -/
def run2C : HiddenState → Nat → (Nat → Nat → ℤ) → Nat → Nat → ℤ :=
  fun _ seqLen seq t k =>
    if k = 0 then reluSum (fun s => seq s 0 + seq s 1) t
    else reluSum (fun s => seq (seqLen - 1 - s) 0 + seq (seqLen - 1 - s) 1)
      (seqLen - 1 - t)

/-- Concrete layer: `ReNetLayer(window_size=1, hidden_dim=1, rnn="RNN",
stack_size=(1,1), channel_size=1)` with the `run1C`/`run2C` weight
configuration. -/
def layA : ReNetLayer :=
  ⟨(1, 1), "RNN", 1, (1, 1), 1, ⟨2, run1C⟩, ⟨2, run2C⟩⟩

/-- Concrete layer with window size 2, `hidden_dim = 1`, `channel_size = 3`. -/
def layW : ReNetLayer :=
  ⟨(2, 2), "RNN", 1, (1, 1), 3, ⟨2, run1C⟩, ⟨2, run2C⟩⟩

/-- All-zero input of shape `(1, 1, 2, 1)`: a one-pixel-wide, two-pixel-tall
image. -/
def inpV0 : Tensor4 :=
  ⟨1, 1, 2, 1, fun _ _ _ _ => 0⟩

/-- Same shape as `inpV0` but with value 1 at the top pixel
`(0, 0, 0, 0)`; the two inputs differ only there. -/
def inpV1 : Tensor4 :=
  ⟨1, 1, 2, 1, fun b c h w => if b = 0 ∧ c = 0 ∧ h = 0 ∧ w = 0 then 1 else 0⟩

/-- All-zero input of shape `(1, 1, 1, 2)`: two pixels side by side. -/
def inpH0 : Tensor4 :=
  ⟨1, 1, 1, 2, fun _ _ _ _ => 0⟩

/-- Same shape as `inpH0` but with value 1 at the left pixel
`(0, 0, 0, 0)`; the two inputs differ only there. -/
def inpH1 : Tensor4 :=
  ⟨1, 1, 1, 2, fun b c h w => if b = 0 ∧ c = 0 ∧ h = 0 ∧ w = 0 then 1 else 0⟩

/-- Input of shape `(1, 1, 33, 2)`: height 33 is not divisible by a window
height of 2. -/
def inp33 : Tensor4 :=
  ⟨1, 1, 33, 2, fun _ _ h w => h * 2 + w⟩

/-- Like `inp33` but with the bottom row (row 32) altered. -/
def inp33' : Tensor4 :=
  ⟨1, 1, 33, 2, fun _ _ h w => if h = 32 then 999 else h * 2 + w⟩

/-- All-zero input of shape `(1, 3, 4, 4)`. -/
def inpW : Tensor4 :=
  ⟨1, 3, 4, 4, fun _ _ _ _ => 0⟩

/-- Decimal digits of `n`, most significant first (`fuel` bounds the
recursion; callers pass `fuel = n + 1 ≥` the digit count). -/
def natDigitsAux : Nat → Nat → List Char
  | 0, _ => []
  | fuel + 1, n =>
      if n < 10 then [Nat.digitChar n]
      else natDigitsAux fuel (n / 10) ++ [Nat.digitChar (n % 10)]

/-- Decimal rendering of a natural number, modelling the index formatting
inside PyTorch's recurrent-parameter names (`l{k}`). -/
def natStr (n : Nat) : String :=
  ⟨natDigitsAux (n + 1) n⟩

/-- Python's substring test `pat in s` on character lists. -/
def strHas (pat : List Char) : List Char → Bool
  | [] => pat.isEmpty
  | c :: rest => pat.isPrefixOf (c :: rest) || strHas pat rest

/-- One entry of the PyTorch `RNNBase._all_weights` listing: the parameter
names of one (layer, direction) slot — `weight_ih_l{k}{suffix}`,
`weight_hh_l{k}{suffix}` and, when `bias=True`, the two bias names.
`suffix` is `""` for the forward direction, `"_reverse"` for the backward
one. -/
def rnnParamGroup (bias : Bool) (k : Nat) (suffix : String) : List String :=
  match bias with
  | true =>
    ["weight_ih_l" ++ natStr k ++ suffix, "weight_hh_l" ++ natStr k ++ suffix,
     "bias_ih_l" ++ natStr k ++ suffix, "bias_hh_l" ++ natStr k ++ suffix]
  | false =>
    ["weight_ih_l" ++ natStr k ++ suffix, "weight_hh_l" ++ natStr k ++ suffix]

/-- `_all_weights` of a bidirectional PyTorch recurrent module with
`numLayers` stacked layers: one `rnnParamGroup` per layer and direction. -/
def rnnAllWeights (numLayers : Nat) (bias : Bool) : List (List String) :=
  (List.range numLayers).flatMap
    (fun k => [rnnParamGroup bias k "", rnnParamGroup bias k "_reverse"])

/-- The parameter names the overridden `apply` (source lines 70-80) passes
to `fn` for one recurrent module: the nested loop over `_all_weights`
keeps exactly the names `p` with `'weight' in p`. -/
def applyWeightTargets (allW : List (List String)) : List String :=
  allW.flatMap (fun grp => grp.filter (fun p => strHas "weight".toList p.toList))

/-- All parameter names `self.apply(nn.init.xavier_uniform_)` initializes:
the `'weight'`-containing names of `firstVRNN` (stacked `s1` layers)
followed by those of `secondHRNN` (stacked `s2` layers). -/
def renetApplyTargets (s1 s2 : Nat) (bias : Bool) : List String :=
  applyWeightTargets (rnnAllWeights s1 bias) ++
    applyWeightTargets (rnnAllWeights s2 bias)

/-- The torch operations invoked by the layer, by kind. -/
inductive TorchOp where
  | unfoldOp
  | permuteOp
  | contiguousOp
  | viewOp
  | splitOp
  | catOp
  | zerosOp
  | toDeviceOp
  | indexOp
  | rnnForwardOp
  | xavierUniformInplace
deriving DecidableEq

/-- Effect classification of a torch operation with respect to existing
tensor storage. -/
inductive OpEffect where
  | alloc
  | writeExisting
deriving DecidableEq

/-- Effect of an operation on pre-existing storage: every operation above
either returns a view/fresh tensor (`alloc`) or overwrites an existing
buffer in place (`writeExisting`).  Of the operations the layer uses, only
`nn.init.xavier_uniform_` (trailing-underscore convention) writes in
place — and it runs in `__init__`, not in `forward`. -/
def TorchOp.effect : TorchOp → OpEffect
  | .xavierUniformInplace => .writeExisting
  | _ => .alloc

/-- Operations executed by `get_valid_patches`, in source order:
`unfold`, `unfold`, `permute`, `contiguous`, `view`, `permute`. -/
def get_valid_patches_trace : List TorchOp :=
  [.unfoldOp, .unfoldOp, .permuteOp, .contiguousOp, .viewOp, .permuteOp]

/-- Operations executed by `get_init_hidden`: `torch.zeros(...).to(...)`,
twice for the LSTM variant. -/
def get_init_hidden_trace (rnn_type : String) : List TorchOp :=
  if rnn_type = "LSTM" then [.zerosOp, .toDeviceOp, .zerosOp, .toDeviceOp]
  else [.zerosOp, .toDeviceOp]

/-- Operations executed by `apply_one_direction`, in source order: the
split/cat building `_in`, the hidden-state initializer, `_in[0]`, the
recurrent-module call, `contiguous`, `view`, and the final split/cat. -/
def apply_one_direction_trace (rnn_type : String) : List TorchOp :=
  [.splitOp, .catOp] ++ get_init_hidden_trace rnn_type ++
    [.indexOp, .rnnForwardOp, .contiguousOp, .viewOp, .splitOp, .catOp]

/-- Operations executed by one `forward` call, in source order. -/
def forward_trace (rnn_type : String) : List TorchOp :=
  get_valid_patches_trace ++ [.permuteOp] ++
    apply_one_direction_trace rnn_type ++ [.permuteOp] ++
    apply_one_direction_trace rnn_type ++ [.permuteOp]

/-- Storage semantics of one operation over a store of flat buffers:
`alloc`-effect operations only append a fresh buffer (`alloc i` being the
content of the buffer allocated at index `i`); `writeExisting`-effect
operations may overwrite an existing buffer (modelled as overwriting
buffer 0). -/
def runOp (alloc : Nat → Nat → ℤ) (s : List (Nat → ℤ)) (op : TorchOp) :
    List (Nat → ℤ) :=
  match op.effect with
  | .alloc => s ++ [alloc s.length]
  | .writeExisting => s.set 0 (alloc s.length)

/-- Running a trace of operations over a store, left to right. -/
def runTrace (alloc : Nat → Nat → ℤ) (ops : List TorchOp)
    (s : List (Nat → ℤ)) : List (Nat → ℤ) :=
  ops.foldl (runOp alloc) s

/-- All-zero input of shape `(1, 2, 2, 1)` for `apply_one_direction`
(dimension roles: sweep-collapse axis, batch, sequence axis, features). -/
def inpB0 : Tensor4 :=
  ⟨1, 2, 2, 1, fun _ _ _ _ => 0⟩

/-- Same shape as `inpB0` but with batch row 1 altered everywhere; the
slice at batch row 0 is unchanged. -/
def inpB1 : Tensor4 :=
  ⟨1, 2, 2, 1, fun _ b _ _ => if b = 1 then 5 else 0⟩

/-- A concrete flat buffer holding the constant 7. -/
def bufSeven : Nat → ℤ :=
  fun _ => 7

/-- A concrete allocation policy: every freshly allocated buffer is zero. -/
def allocZero : Nat → Nat → ℤ :=
  fun _ _ => 0

/-! ## Helper lemmas -/

/-- Index semantics of `get_valid_patches`: the feature vector at grid
position `(i, j)` reads the input at channel `f / (wh * ww)`, row
`i * wh + (f % (wh * ww)) / ww`, column `j * ww + f % ww`. -/
theorem get_valid_patches_data (wh ww : Nat) (x : Tensor4)
    (b f i j : Nat) :
    (get_valid_patches wh ww x).data b f i j =
      x.data b (f / (wh * ww)) (i * wh + f % (wh * ww) / ww)
        (j * ww + f % ww) :=
  rfl

theorem get_valid_patches_d0 (wh ww : Nat) (x : Tensor4) :
    (get_valid_patches wh ww x).d0 = x.d0 :=
  rfl

theorem get_valid_patches_d1 (wh ww : Nat) (x : Tensor4) :
    (get_valid_patches wh ww x).d1 = x.d1 * (wh * ww) :=
  rfl

theorem get_valid_patches_d2 (wh ww : Nat) (x : Tensor4) :
    (get_valid_patches wh ww x).d2 = (x.d2 - wh) / wh + 1 :=
  rfl

theorem get_valid_patches_d3 (wh ww : Nat) (x : Tensor4) :
    (get_valid_patches wh ww x).d3 = (x.d3 - ww) / ww + 1 :=
  rfl

/-- The truncating window count coincides with exact division when the
window size divides the dimension. -/
theorem window_count_eq_div (w n : Nat) (hw : 0 < w) (hn : 0 < n)
    (hd : w ∣ n) : (n - w) / w + 1 = n / w := by
  obtain ⟨k, rfl⟩ := hd
  have hk : k ≠ 0 := by
    rintro rfl
    simp at hn
  obtain ⟨k', rfl⟩ := Nat.exists_eq_succ_of_ne_zero hk
  rw [Nat.mul_succ, Nat.add_sub_cancel, Nat.mul_div_cancel_left _ hw,
    Nat.add_div_right _ hw, Nat.mul_div_cancel_left _ hw]

/-- Decomposed flat index, first component. -/
theorem flat_div (c u v m n : Nat) (hu : u < m) (hv : v < n) :
    (c * (m * n) + (u * n + v)) / (m * n) = c := by
  have h1 : u * n + v < m * n := by
    calc u * n + v < u * n + n := by omega
    _ = (u + 1) * n := by ring
    _ ≤ m * n := Nat.mul_le_mul_right n hu
  rw [Nat.mul_comm c (m * n), Nat.mul_add_div (Nat.mul_pos (by omega) (by omega)),
    Nat.div_eq_of_lt h1, Nat.add_zero]

/-- Decomposed flat index, middle component. -/
theorem flat_mid (c u v m n : Nat) (hu : u < m) (hv : v < n) :
    (c * (m * n) + (u * n + v)) % (m * n) / n = u := by
  have h1 : u * n + v < m * n := by
    calc u * n + v < u * n + n := by omega
    _ = (u + 1) * n := by ring
    _ ≤ m * n := Nat.mul_le_mul_right n hu
  rw [Nat.mul_comm c (m * n), Nat.mul_add_mod, Nat.mod_eq_of_lt h1,
    Nat.mul_comm u n, Nat.mul_add_div (by omega), Nat.div_eq_of_lt hv,
    Nat.add_zero]

/-- Decomposed flat index, last component. -/
theorem flat_mod (c u v m n : Nat) (hv : v < n) :
    (c * (m * n) + (u * n + v)) % n = v := by
  have h2 : c * (m * n) + (u * n + v) = v + (c * m + u) * n := by ring
  rw [h2, Nat.add_mul_mod_self_right, Nat.mod_eq_of_lt hv]

/-- Index semantics of `apply_one_direction`: the output at position
`(l, b, o, k)` is the recurrent module run on the dimension-2 sequence of
the `(l, b)` slice, with the zero hidden state, read at `(o, k)`. -/
theorem apply_one_direction_data (rt : String) (hid : Nat) (x : Tensor4)
    (m : RNNModule) (s l b o k : Nat) (hd1 : 0 < x.d1) (hb : b < x.d1) :
    (apply_one_direction rt hid x m s).data l b o k =
      m.run (get_init_hidden rt hid (catSplit01 x) s) x.d2
        (fun o f => x.data l b o f) o k := by
  have h1 : (l * x.d1 + b) / x.d1 = l := by
    rw [Nat.mul_comm l x.d1, Nat.mul_add_div hd1, Nat.div_eq_of_lt hb,
      Nat.add_zero]
  have h2 : (l * x.d1 + b) % x.d1 = b := by
    rw [Nat.mul_comm l x.d1, Nat.mul_add_mod, Nat.mod_eq_of_lt hb]
  simp only [apply_one_direction, splitCat10, unsqueeze0, rnnApply, sub0,
    catSplit01, Nat.mod_one, Nat.div_one, h1, h2]

theorem apply_one_direction_d0 (rt : String) (hid : Nat) (x : Tensor4)
    (m : RNNModule) (s : Nat) (hd1 : 0 < x.d1) :
    (apply_one_direction rt hid x m s).d0 = x.d0 := by
  simp only [apply_one_direction, splitCat10, unsqueeze0, rnnApply, sub0,
    catSplit01]
  rw [Nat.mul_div_cancel _ hd1, Nat.mul_one]

theorem apply_one_direction_d1 (rt : String) (hid : Nat) (x : Tensor4)
    (m : RNNModule) (s : Nat) :
    (apply_one_direction rt hid x m s).d1 = x.d1 :=
  rfl

theorem apply_one_direction_d2 (rt : String) (hid : Nat) (x : Tensor4)
    (m : RNNModule) (s : Nat) :
    (apply_one_direction rt hid x m s).d2 = x.d2 :=
  rfl

theorem apply_one_direction_d3 (rt : String) (hid : Nat) (x : Tensor4)
    (m : RNNModule) (s : Nat) :
    (apply_one_direction rt hid x m s).d3 = m.outFeatures :=
  rfl

/-! ## Claim C5: patch extraction -/

/-- C5: for divisible input sizes, `get_valid_patches` returns a tensor of
shape `(B, wh*ww*C, H/wh, W/ww)` whose feature vector at grid position
`(i, j)` is the flattening — in the fixed order channel-major, then
window row, then window column — of exactly the input sub-volume covering
rows `i*wh .. (i+1)*wh - 1` and columns `j*ww .. (j+1)*ww - 1` over all
channels; pixels of other patches do not contribute (inputs that agree on
patch `(i, j)`'s window give identical feature vectors there). -/
theorem get_valid_patches_spec (wh ww : Nat) (x : Tensor4)
    (hwh : 0 < wh) (hww : 0 < ww) (hH : 0 < x.d2) (hW : 0 < x.d3)
    (hdh : wh ∣ x.d2) (hdw : ww ∣ x.d3) :
    ((get_valid_patches wh ww x).d0 = x.d0 ∧
     (get_valid_patches wh ww x).d1 = wh * ww * x.d1 ∧
     (get_valid_patches wh ww x).d2 = x.d2 / wh ∧
     (get_valid_patches wh ww x).d3 = x.d3 / ww) ∧
    (∀ b c u v i j, c < x.d1 → u < wh → v < ww →
      (get_valid_patches wh ww x).data b (c * (wh * ww) + (u * ww + v)) i j =
        x.data b c (i * wh + u) (j * ww + v)) ∧
    (∀ (y : Tensor4) (i j : Nat),
      (∀ b c r w, i * wh ≤ r → r < (i + 1) * wh → j * ww ≤ w →
        w < (j + 1) * ww → x.data b c r w = y.data b c r w) →
      ∀ b f, (get_valid_patches wh ww x).data b f i j =
        (get_valid_patches wh ww y).data b f i j) := by
  refine ⟨⟨rfl, ?_, ?_, ?_⟩, ?_, ?_⟩
  · rw [get_valid_patches_d1, Nat.mul_comm]
  · rw [get_valid_patches_d2, window_count_eq_div wh x.d2 hwh hH hdh]
  · rw [get_valid_patches_d3, window_count_eq_div ww x.d3 hww hW hdw]
  · intro b c u v i j _ hu hv
    rw [get_valid_patches_data, flat_div c u v wh ww hu hv,
      flat_mid c u v wh ww hu hv, flat_mod c u v wh ww hv]
  · intro y i j hagree b f
    rw [get_valid_patches_data, get_valid_patches_data]
    have hmodlt : f % (wh * ww) < wh * ww :=
      Nat.mod_lt _ (Nat.mul_pos hwh hww)
    have hu : f % (wh * ww) / ww < wh :=
      (Nat.div_lt_iff_lt_mul hww).mpr hmodlt
    have hv : f % ww < ww := Nat.mod_lt _ hww
    exact hagree b (f / (wh * ww)) _ _ (Nat.le_add_right _ _)
      (by rw [Nat.add_mul, Nat.one_mul]; omega) (Nat.le_add_right _ _)
      (by rw [Nat.add_mul, Nat.one_mul]; omega)

/-- Witness for C5 at window size 1 on the concrete input `inpV1`. -/
theorem get_valid_patches_spec_witness :
    (get_valid_patches 1 1 inpV1).data 0 (0 * (1 * 1) + (0 * 1 + 0)) 0 0 =
      inpV1.data 0 0 (0 * 1 + 0) (0 * 1 + 0) ∧
    (get_valid_patches 1 1 inpV1).d2 = inpV1.d2 / 1 :=
  ⟨(get_valid_patches_spec 1 1 inpV1 (by decide) (by decide) (by decide)
      (by decide) (by decide) (by decide)).2.1 0 0 0 0 0 0 (by decide)
      (by decide) (by decide),
   (get_valid_patches_spec 1 1 inpV1 (by decide) (by decide) (by decide)
      (by decide) (by decide) (by decide)).1.2.2.1⟩

/-! ## Claim C2: behaviour on non-divisible input sizes -/

/-- C2 counterexample: with window size 2 and height 33 (the claim's own
example, `H % ws ≠ 0`), patch extraction does not fail: the torch
`unfold` precondition is satisfied, and extraction yields a well-formed
16-row grid instead of raising a shape-mismatch error. -/
theorem get_valid_patches_no_error_counterexample :
    ¬inp33.d2 % 2 = 0 ∧ get_valid_patches_ok 2 2 inp33 ∧
    (get_valid_patches 2 2 inp33).d2 = 16 ∧
    (get_valid_patches 2 2 inp33).d3 = 1 := by
  decide

/-- C2 amended: when `H` or `W` is not divisible by the window size (but
the window fits, `wh ≤ H` and `ww ≤ W`), `forward`'s patch-extraction step
does not raise: the torch precondition holds, the grid has
`(H - wh)/wh + 1` rows and `(W - ww)/ww + 1` columns, and the trailing
`H % wh` rows and `W % ww` columns are silently ignored — any input
agreeing with `x` on the covered region extracts identical patches. -/
theorem get_valid_patches_truncates (wh ww : Nat) (x : Tensor4)
    (hwh : 0 < wh) (hww : 0 < ww) (hH : wh ≤ x.d2) (hW : ww ≤ x.d3) :
    get_valid_patches_ok wh ww x ∧
    (get_valid_patches wh ww x).d2 = (x.d2 - wh) / wh + 1 ∧
    (get_valid_patches wh ww x).d3 = (x.d3 - ww) / ww + 1 ∧
    ∀ (y : Tensor4),
      (∀ b c r w, r < ((x.d2 - wh) / wh + 1) * wh →
        w < ((x.d3 - ww) / ww + 1) * ww → x.data b c r w = y.data b c r w) →
      ∀ b f i j, i < (x.d2 - wh) / wh + 1 → j < (x.d3 - ww) / ww + 1 →
        (get_valid_patches wh ww x).data b f i j =
          (get_valid_patches wh ww y).data b f i j := by
  refine ⟨⟨⟨hwh, hH⟩, ⟨hww, hW⟩⟩, rfl, rfl, ?_⟩
  intro y hagree b f i j hi hj
  rw [get_valid_patches_data, get_valid_patches_data]
  have hmodlt : f % (wh * ww) < wh * ww :=
    Nat.mod_lt _ (Nat.mul_pos hwh hww)
  have hu : f % (wh * ww) / ww < wh :=
    (Nat.div_lt_iff_lt_mul hww).mpr hmodlt
  have hv : f % ww < ww := Nat.mod_lt _ hww
  refine hagree b (f / (wh * ww)) _ _ ?_ ?_
  · have : i + 1 ≤ (x.d2 - wh) / wh + 1 := hi
    calc i * wh + f % (wh * ww) / ww < (i + 1) * wh := by
          rw [Nat.add_mul, Nat.one_mul]; omega
    _ ≤ ((x.d2 - wh) / wh + 1) * wh := Nat.mul_le_mul_right wh this
  · have : j + 1 ≤ (x.d3 - ww) / ww + 1 := hj
    calc j * ww + f % ww < (j + 1) * ww := by
          rw [Nat.add_mul, Nat.one_mul]; omega
    _ ≤ ((x.d3 - ww) / ww + 1) * ww := Nat.mul_le_mul_right ww this

/-- Witness for the amended C2 at the claim's example sizes: height 33,
window 2; `inp33'` differs from `inp33` only in the ignored bottom row,
and the extracted patches agree at the last covered grid row. -/
theorem get_valid_patches_truncates_witness :
    get_valid_patches_ok 2 2 inp33 ∧
    (get_valid_patches 2 2 inp33).data 0 0 15 0 =
      (get_valid_patches 2 2 inp33').data 0 0 15 0 :=
  ⟨(get_valid_patches_truncates 2 2 inp33 (by decide) (by decide)
      (by decide) (by decide)).1,
   (get_valid_patches_truncates 2 2 inp33 (by decide) (by decide)
      (by decide) (by decide)).2.2.2 inp33'
     (fun b c r w hr _ => by
       have hr32 : ¬r = 32 := by
         simp only [inp33] at hr
         omega
       simp only [inp33, inp33', if_neg hr32])
     0 0 15 0 (by decide) (by decide)⟩

/-! ## Claim C3: which axis `apply_one_direction` sweeps -/

/-- C3 counterexample: `inpV1` and `inpV0` (shape `(1, 1, 2, 1)`) differ
only in the slice at batch position 0, dim-2 position 0 — yet with the
concrete recurrent module `⟨2, run1C⟩` the outputs differ at the *other*
dim-2 position `o = 1` (second conjunct), where the claim requires them to
agree.  The code collapses dim 0 into the batch and the recurrent module
sweeps along dim 2, so outputs are not independent across dim-2 positions. -/
theorem apply_one_direction_claim_counterexample :
    inpV1.data 0 0 1 0 = inpV0.data 0 0 1 0 ∧
    (apply_one_direction "RNN" 1 inpV1 ⟨2, run1C⟩ 1).data 0 0 1 0 ≠
      (apply_one_direction "RNN" 1 inpV0 ⟨2, run1C⟩ 1).data 0 0 1 0 := by
  decide

/-- C3 amended: the output of `apply_one_direction` at position
`(l, b, o, k)` is a function of the entire dim-2 sequence of the `(l, b)`
slice alone: it is independent across dim-0 and batch (dim-1) positions,
while a change at one dim-2 position may influence the output at every
dim-2 position of that slice (dim 0 is collapsed into the batch and the
recurrent module sweeps along dim 2 — the converse of the claim's axis
roles). -/
theorem apply_one_direction_slice_local (rt : String) (hid : Nat)
    (m : RNNModule) (s : Nat) (x y : Tensor4) (l b : Nat)
    (h0 : x.d0 = y.d0) (h1 : x.d1 = y.d1) (h2 : x.d2 = y.d2)
    (hd1 : 0 < x.d1) (hb : b < x.d1)
    (hslice : ∀ o f, x.data l b o f = y.data l b o f) :
    ∀ o k, (apply_one_direction rt hid x m s).data l b o k =
      (apply_one_direction rt hid y m s).data l b o k := by
  intro o k
  rw [apply_one_direction_data rt hid x m s l b o k hd1 hb,
    apply_one_direction_data rt hid y m s l b o k (h1 ▸ hd1) (h1 ▸ hb)]
  have hseq : (fun o f => x.data l b o f) = fun o f => y.data l b o f :=
    funext fun o => funext fun f => hslice o f
  have hhn : get_init_hidden rt hid (catSplit01 x) s =
      get_init_hidden rt hid (catSplit01 y) s := by
    unfold get_init_hidden zeros3 catSplit01
    rw [h0, h1]
  rw [hseq, hhn, h2]

/-- Witness for the amended C3: `inpB1` and `inpB0` differ in batch row 1
but agree on the slice at `(l, b) = (0, 0)`, so the outputs agree at
`(0, 0, 1, 0)`. -/
theorem apply_one_direction_slice_local_witness :
    (apply_one_direction "RNN" 1 inpB1 ⟨2, run1C⟩ 1).data 0 0 1 0 =
      (apply_one_direction "RNN" 1 inpB0 ⟨2, run1C⟩ 1).data 0 0 1 0 :=
  apply_one_direction_slice_local "RNN" 1 ⟨2, run1C⟩ 1 inpB1 inpB0 0 0
    rfl rfl rfl (by decide) (by decide)
    (fun o f => by simp [inpB0, inpB1]) 1 0

/-! ## Claim C4: end-to-end information flow along each image axis -/

/-- C4: with the constructed layer `layA` (window 1, hidden 1, `"RNN"`,
weight configuration `run1C`/`run2C`), the input pairs `inpV0`/`inpV1`
(differing only at the top pixel of a one-pixel-wide column) and
`inpH0`/`inpH1` (differing only at the left pixel of a one-pixel-tall row)
produce `forward` outputs that differ at the opposite end of the changed
axis: information flows from one end of each swept axis to the other. -/
theorem forward_bidirectional_flow :
    mkReNetLayer 1 1 "RNN" (1, 1) 1 run1C run2C = some layA ∧
    inpV0.data 0 0 1 0 = inpV1.data 0 0 1 0 ∧
    (forward layA inpV0).data 0 0 1 0 ≠ (forward layA inpV1).data 0 0 1 0 ∧
    inpH0.data 0 0 0 1 = inpH1.data 0 0 0 1 ∧
    (forward layA inpH0).data 0 0 0 1 ≠ (forward layA inpH1).data 0 0 0 1 :=
  ⟨rfl, by decide, by decide, by decide, by decide⟩

/-! ## Claim C1: forward output shape -/

theorem forward_d0 (lay : ReNetLayer) (x : Tensor4) :
    (forward lay x).d0 = x.d0 :=
  rfl

theorem forward_d1 (lay : ReNetLayer) (x : Tensor4) :
    (forward lay x).d1 = lay.secondHRNN.outFeatures :=
  rfl

theorem forward_d2 (lay : ReNetLayer) (x : Tensor4) (h : 0 < x.d0) :
    (forward lay x).d2 =
      (x.d2 - lay.window_size.1) / lay.window_size.1 + 1 := by
  simp only [forward, apply_one_direction, splitCat10, unsqueeze0, rnnApply,
    sub0, catSplit01, permute_2031, permute_2103, permute_1320,
    get_valid_patches, permute_0312, view6to4, permute_023145, unfold3,
    unfold2]
  rw [Nat.mul_div_cancel _ h, Nat.mul_one]

theorem forward_d3 (lay : ReNetLayer) (x : Tensor4) (h : 0 < x.d0) :
    (forward lay x).d3 =
      (x.d3 - lay.window_size.2) / lay.window_size.2 + 1 := by
  simp only [forward, apply_one_direction, splitCat10, unsqueeze0, rnnApply,
    sub0, catSplit01, permute_2031, permute_2103, permute_1320,
    get_valid_patches, permute_0312, view6to4, permute_023145, unfold3,
    unfold2]
  rw [Nat.mul_div_cancel _ h, Nat.mul_one]

/-- C1: a layer constructed with integer window size `ws` and hidden
dimension `d`, fed a 4-D input `(B, C, H, W)` with `C` equal to the
constructed `channel_size` and `H`, `W` divisible by `ws` (sizes
positive), returns a 4-D tensor of shape `(B, 2*d, H/ws, W/ws)`; the
output channel depth is `2*d` for every `channel_size`. -/
theorem forward_output_shape (ws d : Nat) (rnn : String) (st : Nat × Nat)
    (c : Nat) (r1 r2 : HiddenState → Nat → (Nat → Nat → ℤ) → Nat → Nat → ℤ)
    (lay : ReNetLayer) (x : Tensor4)
    (hmk : mkReNetLayer ws d rnn st c r1 r2 = some lay)
    (_hc : x.d1 = c) (hws : 0 < ws) (hB : 0 < x.d0) (hH : 0 < x.d2)
    (hW : 0 < x.d3) (hdH : x.d2 % ws = 0) (hdW : x.d3 % ws = 0) :
    (forward lay x).d0 = x.d0 ∧ (forward lay x).d1 = 2 * d ∧
    (forward lay x).d2 = x.d2 / ws ∧ (forward lay x).d3 = x.d3 / ws := by
  have hlay : lay =
      ⟨(ws, ws), rnn, d, st, c, ⟨2 * d, r1⟩, ⟨2 * d, r2⟩⟩ := by
    unfold mkReNetLayer at hmk
    split at hmk
    · exact (Option.some.inj hmk).symm
    · exact absurd hmk (by simp)
  subst hlay
  refine ⟨forward_d0 _ x, forward_d1 _ x, ?_, ?_⟩
  · rw [forward_d2 _ x hB]
    exact window_count_eq_div ws x.d2 hws hH (Nat.dvd_of_mod_eq_zero hdH)
  · rw [forward_d3 _ x hB]
    exact window_count_eq_div ws x.d3 hws hW (Nat.dvd_of_mod_eq_zero hdW)

/-- Witness for C1: window 2, hidden 1, 3 channels, input `(1, 3, 4, 4)`
gives output shape `(1, 2, 2, 2)`. -/
theorem forward_output_shape_witness :
    (forward layW inpW).d0 = 1 ∧ (forward layW inpW).d1 = 2 * 1 ∧
    (forward layW inpW).d2 = 4 / 2 ∧ (forward layW inpW).d3 = 4 / 2 :=
  forward_output_shape 2 1 "RNN" (1, 1) 3 run1C run2C layW inpW rfl rfl
    (by decide) (by decide) (by decide) (by decide) (by decide) (by decide)

/-! ## Claim C6: hidden-state initializer -/

/-- C6: `get_init_hidden` returns, for `rnn_type = "LSTM"`, a pair of
all-zero tensors each of shape `(2*s, x.size(1), hidden_dim)`, and for
every other `rnn_type` a single such all-zero tensor; with
`stack_size = (2, 3)` the first sweep's state has leading dimension 4 and
the second sweep's has leading dimension 6. -/
theorem get_init_hidden_spec (hid s : Nat) (x : Tensor4) :
    (get_init_hidden "LSTM" hid x s =
      HiddenState.pair ⟨2 * s, x.d1, hid, fun _ _ _ => 0⟩
        ⟨2 * s, x.d1, hid, fun _ _ _ => 0⟩) ∧
    (∀ rt : String, rt ≠ "LSTM" →
      get_init_hidden rt hid x s =
        HiddenState.single ⟨2 * s, x.d1, hid, fun _ _ _ => 0⟩) ∧
    (∀ rt : String, (get_init_hidden rt hid x 2).lead = 2 * 2 ∧
      (get_init_hidden rt hid x 3).lead = 2 * 3) := by
  refine ⟨rfl, ?_, ?_⟩
  · intro rt hrt
    rw [get_init_hidden, if_neg hrt]
    rfl
  · intro rt
    constructor <;> by_cases h : rt = "LSTM" <;>
      simp [get_init_hidden, HiddenState.lead, zeros3, h]

/-- Witness for C6 at `rnn_type = "GRU"`, `hidden_dim = 7`,
`stack_size = 2`. -/
theorem get_init_hidden_spec_witness :
    get_init_hidden "GRU" 7 inpV0 2 =
      HiddenState.single ⟨2 * 2, inpV0.d1, 7, fun _ _ _ => 0⟩ :=
  (get_init_hidden_spec 7 2 inpV0).2.1 "GRU" (by decide)

/-! ## Claim C8: determinism of forward -/

/-- C8: `forward` is a pure function of the layer (its weights) and the
input tensor — the hidden state is freshly zero-initialized inside every
call and no other state exists, so two calls on equal inputs with the same
layer give equal outputs. -/
theorem forward_deterministic (lay : ReNetLayer) (x y : Tensor4)
    (hxy : x = y) : forward lay x = forward lay y := by
  rw [hxy]

/-- Witness for C8 on the concrete layer `layA` and input `inpV1`. -/
theorem forward_deterministic_witness :
    forward layA inpV1 = forward layA inpV1 :=
  forward_deterministic layA inpV1 inpV1 rfl

/-! ## Claim C9: unknown rnn name fails at construction -/

/-- C9: constructing a `ReNetLayer` with an `rnn` argument that does not
name one of the recurrent-network classes of `torch.nn` fails at
construction time (`getattr(nn, rnn)` raises before any forward call is
possible); nothing in `__init__` catches the error. -/
theorem mkReNetLayer_unknown_rnn (ws hid : Nat) (rnn : String)
    (st : Nat × Nat) (ch : Nat)
    (r1 r2 : HiddenState → Nat → (Nat → Nat → ℤ) → Nat → Nat → ℤ)
    (h : rnn ∉ nnRecurrentModules) :
    mkReNetLayer ws hid rnn st ch r1 r2 = none := by
  rw [mkReNetLayer, if_neg h]

/-- Witness for C9: `"Conv2d"` is not a recurrent-network class name. -/
theorem mkReNetLayer_unknown_rnn_witness :
    mkReNetLayer 1 1 "Conv2d" (1, 1) 3 run1C run2C = none :=
  mkReNetLayer_unknown_rnn 1 1 "Conv2d" (1, 1) 3 run1C run2C (by decide)

/-! ## Claim C7: weight initialization targets -/

theorem digitChar_ne_w (m : Nat) (h : m < 10) : Nat.digitChar m ≠ 'w' := by
  interval_cases m <;> decide

theorem natDigitsAux_ne_w (fuel : Nat) :
    ∀ n c, c ∈ natDigitsAux fuel n → c ≠ 'w' := by
  induction fuel with
  | zero => intro n c hc; simp [natDigitsAux] at hc
  | succ fuel ih =>
      intro n c hc
      rw [natDigitsAux] at hc
      split at hc
      · rename_i hn
        simp at hc
        exact hc ▸ digitChar_ne_w n hn
      · rcases List.mem_append.mp hc with h1 | h1
        · exact ih _ c h1
        · simp at h1
          exact h1 ▸ digitChar_ne_w _ (Nat.mod_lt _ (by omega))

theorem natStr_ne_w (n : Nat) : ∀ c ∈ (natStr n).toList, c ≠ 'w' :=
  fun c hc => natDigitsAux_ne_w (n + 1) n c hc

theorem isPrefixOf_append_self (p r : List Char) :
    p.isPrefixOf (p ++ r) = true := by
  induction p with
  | nil => simp [List.isPrefixOf]
  | cons a as ih => simp [List.isPrefixOf, ih]

theorem strHas_of_isPrefixOf (p l : List Char) (h : p.isPrefixOf l = true) :
    strHas p l = true := by
  cases l with
  | nil =>
      cases p with
      | nil => rfl
      | cons a as => simp [List.isPrefixOf] at h
  | cons c r => simp [strHas, h]

theorem strHas_self_append (p r : List Char) : strHas p (p ++ r) = true :=
  strHas_of_isPrefixOf p (p ++ r) (isPrefixOf_append_self p r)

theorem strHas_eq_false_of_no_w (p l : List Char)
    (h : ∀ c ∈ l, c ≠ 'w') : strHas ('w' :: p) l = false := by
  induction l with
  | nil => rfl
  | cons c r ih =>
      have hc : ('w' == c) = false := by
        have := h c (List.mem_cons_self c r)
        simp [beq_eq_false_iff_ne]
        exact fun hw => this hw.symm
      simp [strHas, List.isPrefixOf, hc]
      exact ih fun d hd => h d (List.mem_cons_of_mem c hd)

theorem toList_append (s t : String) :
    (s ++ t).toList = s.toList ++ t.toList :=
  rfl

theorem weight_list_cons : "weight".toList = 'w' :: "eight".toList := rfl

theorem strHas_weight_ih (k : Nat) (suffix : String) :
    strHas "weight".toList (("weight_ih_l" ++ natStr k ++ suffix).toList)
      = true := by
  have h : ("weight_ih_l" ++ natStr k ++ suffix).toList =
      "weight".toList ++
        ("_ih_l".toList ++ (natStr k).toList ++ suffix.toList) := by
    simp [toList_append]
  rw [h]
  exact strHas_self_append _ _

theorem strHas_weight_hh (k : Nat) (suffix : String) :
    strHas "weight".toList (("weight_hh_l" ++ natStr k ++ suffix).toList)
      = true := by
  have h : ("weight_hh_l" ++ natStr k ++ suffix).toList =
      "weight".toList ++
        ("_hh_l".toList ++ (natStr k).toList ++ suffix.toList) := by
    simp [toList_append]
  rw [h]
  exact strHas_self_append _ _

theorem no_w_bias_ih (k : Nat) (suffix : String)
    (hs : ∀ c ∈ suffix.toList, c ≠ 'w') :
    ∀ c ∈ ("bias_ih_l" ++ natStr k ++ suffix).toList, c ≠ 'w' := by
  intro c hc
  rw [toList_append, toList_append] at hc
  rcases List.mem_append.mp hc with h1 | h1
  · rcases List.mem_append.mp h1 with h2 | h2
    · have hlit : ∀ d ∈ "bias_ih_l".toList, d ≠ 'w' := by decide
      exact hlit c h2
    · exact natStr_ne_w k c h2
  · exact hs c h1

theorem no_w_bias_hh (k : Nat) (suffix : String)
    (hs : ∀ c ∈ suffix.toList, c ≠ 'w') :
    ∀ c ∈ ("bias_hh_l" ++ natStr k ++ suffix).toList, c ≠ 'w' := by
  intro c hc
  rw [toList_append, toList_append] at hc
  rcases List.mem_append.mp hc with h1 | h1
  · rcases List.mem_append.mp h1 with h2 | h2
    · have hlit : ∀ d ∈ "bias_hh_l".toList, d ≠ 'w' := by decide
      exact hlit c h2
    · exact natStr_ne_w k c h2
  · exact hs c h1

theorem strHas_bias_ih (k : Nat) (suffix : String)
    (hs : ∀ c ∈ suffix.toList, c ≠ 'w') :
    strHas "weight".toList (("bias_ih_l" ++ natStr k ++ suffix).toList)
      = false := by
  rw [weight_list_cons]
  exact strHas_eq_false_of_no_w _ _ (no_w_bias_ih k suffix hs)

theorem strHas_bias_hh (k : Nat) (suffix : String)
    (hs : ∀ c ∈ suffix.toList, c ≠ 'w') :
    strHas "weight".toList (("bias_hh_l" ++ natStr k ++ suffix).toList)
      = false := by
  rw [weight_list_cons]
  exact strHas_eq_false_of_no_w _ _ (no_w_bias_hh k suffix hs)

theorem rnnParamGroup_filter (b : Bool) (k : Nat) (suffix : String)
    (hs : ∀ c ∈ suffix.toList, c ≠ 'w') :
    (rnnParamGroup b k suffix).filter
        (fun p => strHas "weight".toList p.toList) =
      rnnParamGroup false k suffix := by
  cases b
  · simp only [rnnParamGroup, List.filter_cons, List.filter_nil,
      strHas_weight_ih, strHas_weight_hh]
    rfl
  · simp only [rnnParamGroup, List.filter_cons, List.filter_nil,
      strHas_weight_ih, strHas_weight_hh, strHas_bias_ih k suffix hs,
      strHas_bias_hh k suffix hs]
    rfl

theorem applyWeightTargets_groups (b : Bool) (l : List Nat) :
    applyWeightTargets
        (l.flatMap fun k =>
          [rnnParamGroup b k "", rnnParamGroup b k "_reverse"]) =
      (l.flatMap fun k =>
          [rnnParamGroup false k "", rnnParamGroup false k "_reverse"]).flatMap
        id := by
  induction l with
  | nil => rfl
  | cons k t ih =>
      simp only [applyWeightTargets, List.flatMap_cons, List.flatMap_append]
        at ih ⊢
      rw [ih]
      simp only [List.flatMap_cons, List.flatMap_nil, List.append_nil, id]
      rw [rnnParamGroup_filter b k "" (by decide),
        rnnParamGroup_filter b k "_reverse" (by decide)]

theorem applyWeightTargets_eq (n : Nat) (b : Bool) :
    applyWeightTargets (rnnAllWeights n b) =
      (rnnAllWeights n false).flatMap id := by
  rw [rnnAllWeights, rnnAllWeights]
  exact applyWeightTargets_groups b (List.range n)

theorem mem_applyWeightTargets_strHas (allW : List (List String))
    (p : String) (hp : p ∈ applyWeightTargets allW) :
    strHas "weight".toList p.toList = true := by
  rcases List.mem_flatMap.mp hp with ⟨grp, _, hmem⟩
  exact (List.mem_filter.mp hmem).2

/-- C7: the names `self.apply(nn.init.xavier_uniform_)` touches are
exactly the `'weight'`-containing parameter names of both recurrent
sub-networks across all stacked layers and both directions (equal, as a
list, to the bias-free weight-name listing), and no bias name is ever
passed to the initializer, for every pair of stack sizes and either bias
setting. -/
theorem apply_targets_exactly_weights (s1 s2 : Nat) (b : Bool) :
    renetApplyTargets s1 s2 b =
      (rnnAllWeights s1 false).flatMap id ++
        (rnnAllWeights s2 false).flatMap id ∧
    (∀ p ∈ renetApplyTargets s1 s2 b,
      strHas "weight".toList p.toList = true) ∧
    (∀ k : Nat, ∀ suffix ∈ ["", "_reverse"],
      ("bias_ih_l" ++ natStr k ++ suffix) ∉ renetApplyTargets s1 s2 b ∧
      ("bias_hh_l" ++ natStr k ++ suffix) ∉ renetApplyTargets s1 s2 b) := by
  refine ⟨?_, ?_, ?_⟩
  · rw [renetApplyTargets, applyWeightTargets_eq, applyWeightTargets_eq]
  · intro p hp
    rcases List.mem_append.mp hp with h | h
    · exact mem_applyWeightTargets_strHas _ p h
    · exact mem_applyWeightTargets_strHas _ p h
  · intro k suffix hsuf
    have hs : ∀ c ∈ suffix.toList, c ≠ 'w' := by
      simp only [List.mem_cons, List.mem_singleton, List.not_mem_nil,
        or_false] at hsuf
      rcases hsuf with rfl | rfl <;> decide
    constructor
    · intro hmem
      rcases List.mem_append.mp hmem with h | h
      · have := mem_applyWeightTargets_strHas _ _ h
        rw [strHas_bias_ih k suffix hs] at this
        exact Bool.false_ne_true this
      · have := mem_applyWeightTargets_strHas _ _ h
        rw [strHas_bias_ih k suffix hs] at this
        exact Bool.false_ne_true this
    · intro hmem
      rcases List.mem_append.mp hmem with h | h
      · have := mem_applyWeightTargets_strHas _ _ h
        rw [strHas_bias_hh k suffix hs] at this
        exact Bool.false_ne_true this
      · have := mem_applyWeightTargets_strHas _ _ h
        rw [strHas_bias_hh k suffix hs] at this
        exact Bool.false_ne_true this

/-- Witness for C7 at `stack_size = (1, 2)`, `bias = True`, layer index 0,
backward direction. -/
theorem apply_targets_exactly_weights_witness :
    ("bias_ih_l" ++ natStr 0 ++ "_reverse") ∉ renetApplyTargets 1 2 true ∧
    ("bias_hh_l" ++ natStr 0 ++ "_reverse") ∉ renetApplyTargets 1 2 true :=
  (apply_targets_exactly_weights 1 2 true).2.2 0 "_reverse"
    (by decide)

/-! ## Claim C10: forward does not mutate its input -/

theorem runTrace_alloc_preserves (ops : List TorchOp)
    (hops : ∀ op ∈ ops, op.effect = OpEffect.alloc) :
    ∀ (alloc : Nat → Nat → ℤ) (s : List (Nat → ℤ)) (i : Nat),
      i < s.length → (runTrace alloc ops s)[i]? = s[i]? := by
  induction ops with
  | nil => intro alloc s i _; rfl
  | cons op t ih =>
      intro alloc s i hi
      have hop : op.effect = OpEffect.alloc :=
        hops op (List.mem_cons_self op t)
      have hstep : runOp alloc s op = s ++ [alloc s.length] := by
        rw [runOp, hop]
      rw [runTrace, List.foldl_cons, ← runTrace, hstep]
      rw [ih (fun o ho => hops o (List.mem_cons_of_mem op ho)) alloc
        (s ++ [alloc s.length]) i (by simp; omega)]
      exact List.getElem?_append_left hi

theorem xavier_not_in_forward_trace (rt : String) :
    TorchOp.xavierUniformInplace ∉ forward_trace rt := by
  by_cases h : rt = "LSTM"
  · subst h
    decide
  · simp [forward_trace, apply_one_direction_trace, get_init_hidden_trace,
      get_valid_patches_trace, h]

theorem forward_trace_all_alloc (rt : String) :
    ∀ op ∈ forward_trace rt, op.effect = OpEffect.alloc := by
  intro op hop
  cases op <;> first
    | rfl
    | exact absurd hop (xavier_not_in_forward_trace rt)

/-- C10: a `forward` call leaves the input tensor unchanged.  Every
operation in `forward`'s execution trace has allocation effect (returns a
view or a fresh tensor; the only in-place operation the layer ever uses,
`nn.init.xavier_uniform_`, is absent from the trace), so running the trace
over any store of buffers preserves every pre-existing buffer — in
particular the input's. -/
theorem forward_preserves_input_buffers (rt : String)
    (alloc : Nat → Nat → ℤ) (s : List (Nat → ℤ)) (i : Nat)
    (hi : i < s.length) :
    (runTrace alloc (forward_trace rt) s)[i]? = s[i]? :=
  runTrace_alloc_preserves (forward_trace rt) (forward_trace_all_alloc rt)
    alloc s i hi

/-- Witness for C10: a store holding one buffer (constant 7) is untouched
by the LSTM-variant forward trace. -/
theorem forward_preserves_input_buffers_witness :
    (runTrace allocZero (forward_trace "LSTM") [bufSeven])[0]? =
      some bufSeven :=
  (forward_preserves_input_buffers "LSTM" allocZero [bufSeven] 0
    (by decide)).trans rfl
